import Mathlib

/-!
Shallow embedding of the `expdb` experiment-tracking database
(`src/expdb/expdb.py` and `src/expdb/expdb_cli.py`).

The persistent database is modelled as an explicit state (`DB`) holding the
three tables (`project`, `experiment`, `experiment_state`) as lists of rows,
together with a logical clock used for the server-assigned creation
timestamps.  Read operations are pure functions of the state; write
operations run through `ExpDB.session_scope`, which commits the body's
changes on normal exit and rolls back (leaves the persistent state
unchanged) when the body raises, re-raising the error — mirroring the
`contextlib.contextmanager` in `ExpDB.session_scope` (expdb.py:125-135).

Python exceptions are modelled by `DBError`; a raised exception is an
`Except.error`.  JSON metadata values are modelled by `JsonVal`; a record's
`data` column (a JSON column that every code path in the repository uses as
a JSON object, cf. `dict.update` in the `update_*_data` methods) is
modelled at the map level as an association list `Dict` with string keys.
The random 128-bit value drawn by `uuid.uuid4()` inside `gen_short_uuid`
is passed in as an explicit natural-number argument.
-/

/-- Values of the JSON columns: null, booleans, numbers, strings, arrays and
objects (numbers are modelled as integers; nothing in the claims depends on
non-integral numbers). -/
inductive JsonVal where
  | null
  | bool (b : Bool)
  | num (n : Int)
  | str (s : String)
  | arr (elems : List JsonVal)
  | obj (fields : List (String × JsonVal))

/-- A Python `dict` with string keys holding JSON values, in insertion order. -/
abbrev Dict := List (String × JsonVal)

/-- Lookup in a Python dict: the value at the first entry carrying the key. -/
def dictGet (d : Dict) (k : String) : Option JsonVal :=
  (d.find? (fun p => p.1 == k)).map (fun p => p.2)

/-- Python dict item assignment `d[k] = v`: if the key is present its value is
replaced in place, otherwise the pair is appended at the end. -/
def dictSet (d : Dict) (k : String) (v : JsonVal) : Dict :=
  if d.any (fun p => p.1 == k) then
    d.map (fun p => if p.1 = k then (k, v) else p)
  else
    d ++ [(k, v)]

/-- Python `d.update(u)`: assign every key/value pair of `u` into `d`, in
order (last write wins). -/
def dictUpdate (d u : Dict) : Dict :=
  u.foldl (fun acc p => dictSet acc p.1 p.2) d

/-- Embeds the `alphabet` local of `gen_short_uuid` (expdb.py:23): the fixed
57-character identifier alphabet. -/
def alphabet : String := "23456789ABCDEFGHJKLMNPQRSTUVWXYZabcdefghijkmnopqrstuvwxyz"

/-- Embeds the `while num > 0` loop of `gen_short_uuid` (expdb.py:25-27): the
base-57 digits of `num`, least-significant first, each mapped through
`alphabet`. -/
def gen_short_uuid_digits : Nat → List Char
  | 0 => []
  | num + 1 => alphabet.data.getD ((num + 1) % 57) ' ' :: gen_short_uuid_digits ((num + 1) / 57)
decreasing_by exact Nat.div_lt_self (Nat.succ_pos _) (by norm_num)

/-- Embeds the module-level `gen_short_uuid(num_chars=None)` (expdb.py:21-32)
applied to the integer `num` drawn from `uuid.uuid4().int`: the base-57
digits are reversed (most-significant first) and, when `num_chars` is given,
the string is truncated to its first `num_chars` characters. -/
def gen_short_uuid (num : Nat) (num_chars : Option Nat) : String :=
  let res2 := (gen_short_uuid_digits num).reverse
  match num_chars with
  | none => String.mk res2
  | some k => String.mk (res2.take k)

/-- Row of the `project` table (expdb.py:89-104): `name` is the primary key;
`creation_time` has a server-side default and is populated on insert. -/
structure Project where
  name : String
  tags : Option String
  description : Option String
  data : Dict
  creation_time : Option Nat
  hidden : Bool

/-- Row of the `experiment` table (expdb.py:63-83): `uuid` is the primary
key; `project_name` is a nullable foreign key to `project.name`. -/
structure Experiment where
  uuid : String
  name : Option String
  tags : Option String
  data : Dict
  project_name : Option String
  description : Option String
  creation_time : Option Nat
  hidden : Bool

/-- Row of the `experiment_state` table (expdb.py:42-57): `uuid` is the
primary key; `experiment_uuid` is a nullable foreign key to
`experiment.uuid`. -/
structure ExperimentState where
  uuid : String
  name : Option String
  tags : Option String
  data : Dict
  experiment_uuid : Option String
  description : Option String
  creation_time : Option Nat
  hidden : Bool

/-- Attribute names the declarative constructor of `Experiment` accepts as
keyword arguments: its mapped columns (expdb.py:65-83) and relationship
attributes (`project`, `states`). -/
def experimentAttrs : List String :=
  ["uuid", "name", "tags", "data", "project_name", "description",
   "creation_time", "project", "states", "hidden"]

/-- Attribute names the declarative constructor of `Project` accepts
(expdb.py:91-104). -/
def projectAttrs : List String :=
  ["name", "tags", "description", "data", "creation_time", "experiments", "hidden"]

/-- Attribute names the declarative constructor of `ExperimentState` accepts
(expdb.py:44-57). -/
def experimentStateAttrs : List String :=
  ["uuid", "name", "tags", "data", "experiment_uuid", "description",
   "creation_time", "experiment", "hidden"]

/-- Python exceptions raised by the embedded code paths: `assert` failures,
`TypeError` from a declarative constructor given an unknown keyword, and
integrity errors raised on commit for primary-key violations. -/
inductive DBError where
  | assertionError
  | typeError
  | integrityError
deriving DecidableEq

/-- Persistent database state: the three tables plus a logical clock for the
server-assigned `creation_time` defaults. -/
structure DB where
  projects : List Project
  experiments : List Experiment
  experiment_states : List ExperimentState
  now : Nat

/-- The declarative-base constructor (`sqlalchemy_base`): called with keyword
arguments whose names are `kwargKeys`, it produces the row `row` when every
keyword names a mapped attribute of the class (attribute list `attrs`) and
raises `TypeError` otherwise, before anything reaches the session. -/
def declarativeNew {α : Type} (attrs : List String) (kwargKeys : List String)
    (row : α) : Except DBError α :=
  if kwargKeys.all (fun k => attrs.contains k) then Except.ok row
  else Except.error DBError.typeError

/-- Embeds `ExpDB.session_scope` (expdb.py:125-135): run the body against the
current persistent state; on normal exit commit the body's state, on an
exception roll back (the persistent state is unchanged) and re-raise.
Closing the session (the `finally` clause) releases the connection and has
no effect on the persistent state. -/
def ExpDB.session_scope {α : Type} (db : DB) (body : DB → Except DBError (DB × α)) :
    DB × Except DBError α :=
  match body db with
  | Except.ok (db2, a) => (db2, Except.ok a)
  | Except.error e => (db, Except.error e)

/-- Alias for the module-level encoder, referenced from the `ExpDB` method
namespace where the unqualified name would denote the method itself. -/
def gen_short_uuid_module : Nat → Option Nat → String := gen_short_uuid

/-- Embeds `ExpDB.gen_short_uuid` (expdb.py:137-140) with
`self.uuid_length = 10` (expdb.py:120), applied to the random value `r`
drawn by `uuid.uuid4()`: the module-level encoder truncated to 10
characters.  No collision check is performed. -/
def ExpDB.gen_short_uuid (r : Nat) : String :=
  gen_short_uuid_module r (some 10)

/-- Embeds `ExpDB.run_query_with_optional_session` (expdb.py:142-147): a pure
read runs against the given session's state when one is passed, or inside a
fresh session scope otherwise; either way it observes the state `db`. -/
def ExpDB.run_query_with_optional_session {α : Type} (db : DB) (query : DB → α) : α :=
  query db

/-- Embeds `ExpDB.run_get` (expdb.py:149-162): run `get_fn`, assert at most
one row came back, assert exactly one when `assertExists`, and return the
row (or `none` when absent and existence was not asserted).  The `uuid`
argument is only checked to be a string (true by typing). -/
def ExpDB.run_get {α : Type} (db : DB) (uuid : String) (get_fn : DB → List α)
    (assertExists : Bool) : Except DBError (Option α) :=
  let result := ExpDB.run_query_with_optional_session db get_fn
  if result.length ≤ 1 then
    if assertExists && !(result.length == 1) then Except.error DBError.assertionError
    else Except.ok result.head?
  else Except.error DBError.assertionError

/-- Embeds `ExpDB.get_projects` (expdb.py:191-208): all project rows passing
the conjunction of the optional filters — `hidden == False` unless
`show_hidden`, and membership of `name` in `names` when a list is given.
The eager subquery loads only prefetch related rows and do not affect the
result set. -/
def ExpDB.get_projects (db : DB) (names : Option (List String)) (show_hidden : Bool) :
    List Project :=
  ExpDB.run_query_with_optional_session db (fun sess =>
    sess.projects.filter (fun p =>
      (show_hidden || !p.hidden) &&
      (match names with
       | none => true
       | some ns => ns.contains p.name)))

/-- Embeds `ExpDB.get_project` (expdb.py:182-189): fetch the single project
named `name` through `run_get` over `get_projects` (which applies the
default `show_hidden=False` filter). -/
def ExpDB.get_project (db : DB) (name : String) (assertExists : Bool) :
    Except DBError (Option Project) :=
  ExpDB.run_get db name (fun sess => ExpDB.get_projects sess (some [name]) false)
    assertExists

/-- Embeds `ExpDB.get_experiments` (expdb.py:279-294). -/
def ExpDB.get_experiments (db : DB) (uuids : Option (List String)) (show_hidden : Bool) :
    List Experiment :=
  ExpDB.run_query_with_optional_session db (fun sess =>
    sess.experiments.filter (fun e =>
      (show_hidden || !e.hidden) &&
      (match uuids with
       | none => true
       | some us => us.contains e.uuid)))

/-- Embeds `ExpDB.get_experiment` (expdb.py:270-277). -/
def ExpDB.get_experiment (db : DB) (uuid : String) (assertExists : Bool) :
    Except DBError (Option Experiment) :=
  ExpDB.run_get db uuid (fun sess => ExpDB.get_experiments sess (some [uuid]) false)
    assertExists

/-- Embeds `ExpDB.get_experiment_states` (expdb.py:332-350). -/
def ExpDB.get_experiment_states (db : DB) (uuids : Option (List String))
    (show_hidden : Bool) : List ExperimentState :=
  ExpDB.run_query_with_optional_session db (fun sess =>
    sess.experiment_states.filter (fun s =>
      (show_hidden || !s.hidden) &&
      (match uuids with
       | none => true
       | some us => us.contains s.uuid)))

/-- Embeds `ExpDB.get_experiment_state` (expdb.py:319-330). -/
def ExpDB.get_experiment_state (db : DB) (uuid : String) (assertExists : Bool) :
    Except DBError (Option ExperimentState) :=
  ExpDB.run_get db uuid (fun sess => ExpDB.get_experiment_states sess (some [uuid]) false)
    assertExists

/-- Keyword names passed to `Project(...)` inside `create_project`
(expdb.py:174-178). -/
def createProjectKwargKeys : List String :=
  ["name", "description", "tags", "data", "hidden"]

/-- Embeds `ExpDB.create_project` (expdb.py:164-180): construct the row
(`hidden=False`, server-assigned creation time), add it to the session and
commit — the commit raises an integrity error when the primary key `name`
is already taken, rolling the insert back — then return the result of a
fresh read-after-write `get_project(name, assertExists=True)`.  The
`is_jsonable` assertion on `data` holds by typing. -/
def ExpDB.create_project (db : DB) (name : String) (data : Dict)
    (description tags : Option String) : DB × Except DBError (Option Project) :=
  let committed := ExpDB.session_scope db (fun sess =>
    match declarativeNew projectAttrs createProjectKwargKeys
        ({ name := name, tags := tags, description := description, data := data,
           creation_time := some sess.now, hidden := false } : Project) with
    | Except.error e => Except.error e
    | Except.ok newp =>
      if sess.projects.any (fun p => p.name == name) then
        Except.error DBError.integrityError
      else
        Except.ok ({ sess with projects := sess.projects ++ [newp], now := sess.now + 1 }, ()))
  match committed.2 with
  | Except.error e => (committed.1, Except.error e)
  | Except.ok _ =>
    match ExpDB.get_project committed.1 name true with
    | Except.error e => (committed.1, Except.error e)
    | Except.ok p => (committed.1, Except.ok p)

/-- Keyword names passed to `Experiment(...)` inside `create_experiment`
(expdb.py:224-230). -/
def createExperimentKwargKeys : List String :=
  ["uuid", "project_name", "name", "description", "tags", "data", "hidden"]

/-- Embeds `ExpDB.create_experiment` (expdb.py:211-232); `r` is the random
value drawn by `uuid.uuid4()` for the generated identifier.  The
`project_name` reference is not validated. -/
def ExpDB.create_experiment (db : DB) (r : Nat) (project_name : String) (data : Dict)
    (name description tags : Option String) : DB × Except DBError (Option Experiment) :=
  let new_id := ExpDB.gen_short_uuid r
  let committed := ExpDB.session_scope db (fun sess =>
    match declarativeNew experimentAttrs createExperimentKwargKeys
        ({ uuid := new_id, name := name, tags := tags, data := data,
           project_name := some project_name, description := description,
           creation_time := some sess.now, hidden := false } : Experiment) with
    | Except.error e => Except.error e
    | Except.ok newe =>
      if sess.experiments.any (fun e => e.uuid == new_id) then
        Except.error DBError.integrityError
      else
        Except.ok
          ({ sess with experiments := sess.experiments ++ [newe], now := sess.now + 1 }, ()))
  match committed.2 with
  | Except.error e => (committed.1, Except.error e)
  | Except.ok _ =>
    match ExpDB.get_experiment committed.1 new_id true with
    | Except.error e => (committed.1, Except.error e)
    | Except.ok exp => (committed.1, Except.ok exp)

/-- Keyword names passed at the constructor call inside
`create_experiment_state` (expdb.py:309-315).  Note the call constructs an
`Experiment` — `new_exp = Experiment(uuid=..., experiment_uuid=..., ...)` —
and `experiment_uuid` is not a mapped attribute of `Experiment`. -/
def createExperimentStateKwargKeys : List String :=
  ["uuid", "experiment_uuid", "name", "description", "tags", "data", "hidden"]

/-- Embeds `ExpDB.create_experiment_state` (expdb.py:296-317).  The source
constructs an `Experiment` object (not an `ExperimentState`) with the
keyword arguments `createExperimentStateKwargKeys`, so the declarative
constructor is checked against `experimentAttrs`; since `experiment_uuid`
is not among them the constructor raises `TypeError`, the scope rolls back
and the error propagates.  Were the constructor to succeed, the row would
be added to the `experiment` table and the follow-up
`get_experiment_state(uuid=new_id, assertExists=True)` would be issued
against the (untouched) `experiment_state` table. -/
def ExpDB.create_experiment_state (db : DB) (r : Nat) (experiment_uuid : String)
    (data : Dict) (name description tags : Option String) :
    DB × Except DBError (Option ExperimentState) :=
  let new_id := ExpDB.gen_short_uuid r
  let committed := ExpDB.session_scope db (fun sess =>
    match declarativeNew experimentAttrs createExperimentStateKwargKeys
        ({ uuid := new_id, name := name, tags := tags, data := data,
           project_name := none, description := description,
           creation_time := some sess.now, hidden := false } : Experiment) with
    | Except.error e => Except.error e
    | Except.ok newe =>
      if sess.experiments.any (fun e => e.uuid == new_id) then
        Except.error DBError.integrityError
      else
        Except.ok
          ({ sess with experiments := sess.experiments ++ [newe], now := sess.now + 1 }, ()))
  match committed.2 with
  | Except.error e => (committed.1, Except.error e)
  | Except.ok _ =>
    match ExpDB.get_experiment_state committed.1 new_id true with
    | Except.error e => (committed.1, Except.error e)
    | Except.ok st => (committed.1, Except.ok st)

/-- Embeds `ExpDB.update_project_data` (expdb.py:234-244): inside one scope,
fetch the project by name with `assertExists=True` (through the default
non-hidden query), merge `data` into its metadata map with `dict.update`,
flag the column dirty and commit.  The fetched row is the unique visible
row with that name (names are the primary key), modelled by updating the
rows carrying the name. -/
def ExpDB.update_project_data (db : DB) (name : String) (data : Dict) :
    DB × Except DBError Unit :=
  ExpDB.session_scope db (fun sess =>
    match ExpDB.get_project sess name true with
    | Except.error e => Except.error e
    | Except.ok none => Except.error DBError.assertionError
    | Except.ok (some _) =>
      Except.ok ({ sess with projects := sess.projects.map (fun p =>
        if p.name = name then { p with data := dictUpdate p.data data } else p) }, ()))

/-- Embeds `ExpDB.update_experiment_data` (expdb.py:246-256). -/
def ExpDB.update_experiment_data (db : DB) (uuid : String) (data : Dict) :
    DB × Except DBError Unit :=
  ExpDB.session_scope db (fun sess =>
    match ExpDB.get_experiment sess uuid true with
    | Except.error e => Except.error e
    | Except.ok none => Except.error DBError.assertionError
    | Except.ok (some _) =>
      Except.ok ({ sess with experiments := sess.experiments.map (fun e =>
        if e.uuid = uuid then { e with data := dictUpdate e.data data } else e) }, ()))

/-- Embeds `ExpDB.update_experiment_state_data` (expdb.py:258-268). -/
def ExpDB.update_experiment_state_data (db : DB) (uuid : String) (data : Dict) :
    DB × Except DBError Unit :=
  ExpDB.session_scope db (fun sess =>
    match ExpDB.get_experiment_state sess uuid true with
    | Except.error e => Except.error e
    | Except.ok none => Except.error DBError.assertionError
    | Except.ok (some _) =>
      Except.ok ({ sess with experiment_states := sess.experiment_states.map (fun s =>
        if s.uuid = uuid then { s with data := dictUpdate s.data data } else s) }, ()))

/-- Embeds `ExpDB.hide_project` (expdb.py:359-364): fetch the project by
name with `assertExists=True` through the default non-hidden query, then
set its `hidden` flag; the fetched row is the unique row with that name
(primary key), modelled by setting the flag on the rows carrying the
name. -/
def ExpDB.hide_project (db : DB) (project_name : String) : DB × Except DBError Unit :=
  ExpDB.session_scope db (fun sess =>
    match ExpDB.get_project sess project_name true with
    | Except.error e => Except.error e
    | Except.ok none => Except.error DBError.assertionError
    | Except.ok (some _) =>
      Except.ok ({ sess with projects := sess.projects.map (fun p =>
        if p.name = project_name then { p with hidden := true } else p) }, ()))

/-- Embeds `ExpDB.hide_experiment` (expdb.py:366-371). -/
def ExpDB.hide_experiment (db : DB) (experiment_uuid : String) : DB × Except DBError Unit :=
  ExpDB.session_scope db (fun sess =>
    match ExpDB.get_experiment sess experiment_uuid true with
    | Except.error e => Except.error e
    | Except.ok none => Except.error DBError.assertionError
    | Except.ok (some _) =>
      Except.ok ({ sess with experiments := sess.experiments.map (fun e =>
        if e.uuid = experiment_uuid then { e with hidden := true } else e) }, ()))

/-- Embeds `ExpDB.hide_experiment_state` (expdb.py:352-357). -/
def ExpDB.hide_experiment_state (db : DB) (experiment_state_uuid : String) :
    DB × Except DBError Unit :=
  ExpDB.session_scope db (fun sess =>
    match ExpDB.get_experiment_state sess experiment_state_uuid true with
    | Except.error e => Except.error e
    | Except.ok none => Except.error DBError.assertionError
    | Except.ok (some _) =>
      Except.ok ({ sess with experiment_states := sess.experiment_states.map (fun s =>
        if s.uuid = experiment_state_uuid then { s with hidden := true } else s) }, ()))

/-- Record of the `evaluations` kind operated on by the CLI `hide`
subcommand.  Modelled from the spec: the storage layer the CLI calls for
this kind (`evaluation_uuid_exists`, `hide_evaluation`) is not present
under `src`; per the spec a record carries an identifier and a hidden
flag. -/
structure EvalRecord where
  uuid : String
  hidden : Bool

/-- Modelled from the spec: `db.evaluation_uuid_exists`, called at
expdb_cli.py:34 but not defined under `src`; the spec's hide contract
checks an identifier for existence first, so this is membership of the
identifier in the evaluation store. -/
def evaluation_uuid_exists (evals : List EvalRecord) (u : String) : Bool :=
  evals.any (fun e => e.uuid == u)

/-- Modelled from the spec: `db.hide_evaluation`, called at expdb_cli.py:37
but not defined under `src`; sets the hidden flag of the record carrying
the identifier. -/
def hide_evaluation (evals : List EvalRecord) (u : String) : List EvalRecord :=
  evals.map (fun e => if e.uuid = u then { e with hidden := true } else e)

/-- Record of the `models` kind operated on by the CLI `hide` subcommand;
modelled from the spec like `EvalRecord`. -/
structure ModelRecord where
  uuid : String
  hidden : Bool

/-- Modelled from the spec: `db.model_uuid_exists`, called at
expdb_cli.py:59 and 68 but not defined under `src`. -/
def model_uuid_exists (models : List ModelRecord) (u : String) : Bool :=
  models.any (fun m => m.uuid == u)

/-- Modelled from the spec: `db.hide_model`, called at expdb_cli.py:62 and 71
but not defined under `src`. -/
def hide_model (models : List ModelRecord) (u : String) : List ModelRecord :=
  models.map (fun m => if m.uuid = u then { m with hidden := true } else m)

/-- Embeds Python `s.split(',')` on a character list: split at every comma,
keeping empty pieces. -/
def splitCommaChars : List Char → List String
  | [] => [""]
  | c :: rest =>
    let r := splitCommaChars rest
    if c = ',' then "" :: r
    else
      match r with
      | [] => [String.mk [c]]
      | s :: ss => String.mk (c :: s.data) :: ss

/-- Embeds Python `uuid_list.split(',')` (expdb_cli.py:33 and 67). -/
def pySplitComma (s : String) : List String :=
  splitCommaChars s.data

/-- Embeds the `--uuid_list` branch of the CLI `hide evaluations` subcommand
(expdb_cli.py:31-38): for each comma-separated identifier, when it does not
exist print the diagnostic and continue, otherwise hide it and print a
confirmation.  Returns the final evaluation store and the printed lines. -/
def hide_evaluations_uuid_list (evals : List EvalRecord) (uuid_list : String) :
    List EvalRecord × List String :=
  (pySplitComma uuid_list).foldl
    (fun acc cur_uuid =>
      if evaluation_uuid_exists acc.1 cur_uuid then
        (hide_evaluation acc.1 cur_uuid,
         acc.2 ++ ["evaluation " ++ cur_uuid ++ " is now hidden"])
      else
        (acc.1, acc.2 ++ [cur_uuid ++ " is not a valid evaluation id"]))
    (evals, [])

/-- Embeds the `--uuid_list` branch of the CLI `hide models` subcommand
(expdb_cli.py:64-72). -/
def hide_models_uuid_list (models : List ModelRecord) (uuid_list : String) :
    List ModelRecord × List String :=
  (pySplitComma uuid_list).foldl
    (fun acc cur_uuid =>
      if model_uuid_exists acc.1 cur_uuid then
        (hide_model acc.1 cur_uuid,
         acc.2 ++ ["Model " ++ cur_uuid ++ " is now hidden"])
      else
        (acc.1, acc.2 ++ [cur_uuid ++ " is not a valid model id"]))
    (models, [])

/-- The empty database, as created on first connection. -/
def dbEmpty : DB :=
  { projects := [], experiments := [], experiment_states := [], now := 0 }

/-- Sample hidden experiment row. -/
def hiddenExp : Experiment :=
  { uuid := "E1", name := none, tags := none, data := [("a", JsonVal.num 1)],
    project_name := none, description := none, creation_time := some 0, hidden := true }

/-- Sample database whose only experiment is already hidden. -/
def dbHiddenExp : DB :=
  { projects := [], experiments := [hiddenExp], experiment_states := [], now := 1 }

/-- Sample visible project row. -/
def visProj : Project :=
  { name := "P", tags := none, description := none, data := [("a", JsonVal.num 1)],
    creation_time := some 0, hidden := false }

/-- Sample visible experiment row. -/
def visExp : Experiment :=
  { uuid := "E", name := none, tags := none, data := [("a", JsonVal.num 1)],
    project_name := some "P", description := none, creation_time := some 0,
    hidden := false }

/-- Sample visible experiment-state row. -/
def visState : ExperimentState :=
  { uuid := "S", name := none, tags := none, data := [("a", JsonVal.num 1)],
    experiment_uuid := some "E", description := none, creation_time := some 0,
    hidden := false }

/-- Sample database with one visible row of each kind. -/
def dbVis : DB :=
  { projects := [visProj], experiments := [visExp], experiment_states := [visState],
    now := 1 }

/-! Helper lemmas. -/

/-- Filtering a list whose `f`-keys are distinct, with a predicate that holds
at `e` and forces the key of `e` on every match, yields exactly `[e]`. -/
theorem filter_eq_single_of_key {α β : Type} [DecidableEq β] (f : α → β) (p : α → Bool)
    (l : List α) (e : α) (he : e ∈ l) (hnd : (l.map f).Nodup)
    (hpe : p e = true) (hp : ∀ x ∈ l, p x = true → f x = f e) :
    l.filter p = [e] := by
  induction l with
  | nil => cases he
  | cons a t ih =>
    rw [List.map_cons, List.nodup_cons] at hnd
    rcases List.mem_cons.mp he with rfl | het
    · rw [List.filter_cons_of_pos hpe]
      have ht : t.filter p = [] := by
        rw [List.filter_eq_nil_iff]
        intro x hx hpx
        exact hnd.1 (hp x (List.mem_cons_of_mem _ hx) hpx ▸ List.mem_map_of_mem f hx)
      rw [ht]
    · have hpa : p a = false := by
        cases hpa2 : p a with
        | false => rfl
        | true =>
          have hfa : f a ∈ t.map f := by
            rw [hp a (List.mem_cons_self a t) hpa2]
            exact List.mem_map_of_mem f het
          exact absurd hfa hnd.1
      rw [List.filter_cons_of_neg (by simp [hpa])]
      exact ih het hnd.2 (fun x hx hpx => hp x (List.mem_cons_of_mem _ hx) hpx)

/-- A `run_get` whose query returns a single row yields that row. -/
theorem run_get_singleton {α : Type} (db : DB) (u : String) (g : DB → List α) (e : α)
    (h : g db = [e]) : ExpDB.run_get db u g true = Except.ok (some e) := by
  simp [ExpDB.run_get, ExpDB.run_query_with_optional_session, h]

/-- A `run_get` with `assert_exists` whose query returns no row raises. -/
theorem run_get_empty_true {α : Type} (db : DB) (u : String) (g : DB → List α)
    (h : g db = []) : ExpDB.run_get db u g true = Except.error DBError.assertionError := by
  simp [ExpDB.run_get, ExpDB.run_query_with_optional_session, h]

/-- A `run_get` without `assert_exists` whose query returns no row yields
`none`. -/
theorem run_get_empty_false {α : Type} (db : DB) (u : String) (g : DB → List α)
    (h : g db = []) : ExpDB.run_get db u g false = Except.ok none := by
  simp [ExpDB.run_get, ExpDB.run_query_with_optional_session, h]

/-- Lookup after a cons step. -/
theorem dictGet_cons (a : String × JsonVal) (t : Dict) (k : String) :
    dictGet (a :: t) k = if a.1 == k then some a.2 else dictGet t k := by
  by_cases h : a.1 = k
  · simp [dictGet, List.find?_cons_of_pos, h]
  · simp [dictGet, List.find?_cons_of_neg, h]

/-- Assignment skips over an entry with a different key. -/
theorem dictSet_cons_ne (a : String × JsonVal) (t : Dict) (k : String) (v : JsonVal)
    (h : a.1 ≠ k) : dictSet (a :: t) k v = a :: dictSet t k v := by
  have hb : (a.1 == k) = false := by simp [h]
  cases hany : t.any (fun p => p.1 == k) with
  | true => simp [dictSet, List.any_cons, hb, hany, if_neg h]
  | false => simp [dictSet, List.any_cons, hb, hany]

/-- Replacing the entries at key `k` does not change lookups at other keys. -/
theorem dictGet_map_set_ne (t : Dict) (k k' : String) (v : JsonVal) (hne : k ≠ k') :
    dictGet (t.map (fun p => if p.1 = k then (k, v) else p)) k' = dictGet t k' := by
  induction t with
  | nil => rfl
  | cons a t ih =>
    by_cases h : a.1 = k
    · rw [List.map_cons, if_pos h, dictGet_cons, dictGet_cons]
      have h1 : (k == k') = false := by simp [hne]
      have h2 : (a.1 == k') = false := by simp [h, hne]
      rw [h1, h2]
      simpa using ih
    · rw [List.map_cons, if_neg h, dictGet_cons, dictGet_cons]
      by_cases h3 : a.1 = k'
      · simp [h3]
      · have h4 : (a.1 == k') = false := by simp [h3]
        rw [h4]
        simpa using ih

/-- After `d[k] = v`, looking up `k` yields `v`. -/
theorem dictGet_dictSet_self (d : Dict) (k : String) (v : JsonVal) :
    dictGet (dictSet d k v) k = some v := by
  induction d with
  | nil =>
    rw [show dictSet [] k v = [(k, v)] from rfl, dictGet_cons]
    simp
  | cons a t ih =>
    by_cases h : a.1 = k
    · have hset : dictSet (a :: t) k v =
          (k, v) :: t.map (fun p => if p.1 = k then (k, v) else p) := by
        simp [dictSet, List.any_cons, h]
      rw [hset, dictGet_cons]
      simp
    · rw [dictSet_cons_ne a t k v h, dictGet_cons]
      have hb : (a.1 == k) = false := by simp [h]
      rw [hb]
      simpa using ih

/-- After `d[k] = v`, lookups at other keys are unchanged. -/
theorem dictGet_dictSet_ne (d : Dict) (k k' : String) (v : JsonVal) (hne : k ≠ k') :
    dictGet (dictSet d k v) k' = dictGet d k' := by
  induction d with
  | nil =>
    rw [show dictSet [] k v = [(k, v)] from rfl, dictGet_cons]
    have hb : (k == k') = false := by simp [hne]
    rw [hb]
    simp [dictGet]
  | cons a t ih =>
    by_cases h : a.1 = k
    · have hset : dictSet (a :: t) k v =
          (k, v) :: t.map (fun p => if p.1 = k then (k, v) else p) := by
        simp [dictSet, List.any_cons, h]
      rw [hset, dictGet_cons, dictGet_cons]
      have h1 : (k == k') = false := by simp [hne]
      have h2 : (a.1 == k') = false := by simp [h, hne]
      rw [h1, h2]
      simpa using dictGet_map_set_ne t k k' v hne
    · rw [dictSet_cons_ne a t k v h, dictGet_cons, dictGet_cons]
      cases hb : (a.1 == k') with
      | true => rfl
      | false => simpa using ih

/-- A key absent from the key list is absent from the map. -/
theorem dictGet_eq_none_of_not_mem_keys (d : Dict) (k : String)
    (h : k ∉ d.map Prod.fst) : dictGet d k = none := by
  induction d with
  | nil => rfl
  | cons a t ih =>
    rw [List.map_cons, List.mem_cons] at h
    push_neg at h
    rw [dictGet_cons]
    have hb : (a.1 == k) = false := by
      simp
      exact fun hk => h.1 hk.symm
    rw [hb]
    simpa using ih h.2

/-- Python `d.update(u)` leaves keys outside `u` unchanged. -/
theorem dictGet_dictUpdate_of_not_mem (d u : Dict) (k : String)
    (h : dictGet u k = none) : dictGet (dictUpdate d u) k = dictGet d k := by
  induction u generalizing d with
  | nil => rfl
  | cons a t ih =>
    rw [dictGet_cons] at h
    by_cases hk : a.1 = k
    · simp [hk] at h
    · have h2 : dictGet t k = none := by simpa [hk] using h
      show dictGet (dictUpdate (dictSet d a.1 a.2) t) k = dictGet d k
      rw [ih (dictSet d a.1 a.2) h2]
      exact dictGet_dictSet_ne d a.1 k a.2 hk

/-- Python `d.update(u)` makes every key of `u` map to its `u`-value (for a
genuine dict `u`, whose keys are distinct). -/
theorem dictGet_dictUpdate_of_mem (d u : Dict) (hnd : (u.map Prod.fst).Nodup)
    (k : String) (v : JsonVal) (h : dictGet u k = some v) :
    dictGet (dictUpdate d u) k = some v := by
  induction u generalizing d with
  | nil => cases h
  | cons a t ih =>
    rw [List.map_cons, List.nodup_cons] at hnd
    rw [dictGet_cons] at h
    by_cases hk : a.1 = k
    · have h2 : a.2 = v := by simpa [hk] using h
      have htk : dictGet t k = none :=
        dictGet_eq_none_of_not_mem_keys t k (hk ▸ hnd.1)
      show dictGet (dictUpdate (dictSet d a.1 a.2) t) k = some v
      rw [dictGet_dictUpdate_of_not_mem (dictSet d a.1 a.2) t k htk, hk, h2]
      exact dictGet_dictSet_self d k v
    · have h2 : dictGet t k = some v := by simpa [hk] using h
      exact ih (dictSet d a.1 a.2) hnd.2 h2

/-- A valid index makes `getD` return an element of the list. -/
theorem getD_mem_of_lt {α : Type} (l : List α) (i : Nat) (d : α) (h : i < l.length) :
    l.getD i d ∈ l := by
  induction l generalizing i with
  | nil => simp at h
  | cons a t ih =>
    cases i with
    | zero => simp [List.getD_cons_zero]
    | succ j =>
      rw [List.getD_cons_succ]
      exact List.mem_cons_of_mem a (ih j (by simpa using h))

/-- Unfolding of the encoder loop at a positive argument. -/
theorem gen_short_uuid_digits_ne_zero (n : Nat) (h : n ≠ 0) :
    gen_short_uuid_digits n
      = alphabet.data.getD (n % 57) ' ' :: gen_short_uuid_digits (n / 57) := by
  cases n with
  | zero => exact absurd rfl h
  | succ m => rw [gen_short_uuid_digits]

/-- A value at least `57 ^ k` has more than `k` base-57 digits. -/
theorem gen_short_uuid_digits_length (k : Nat) : ∀ n : Nat, 57 ^ k ≤ n →
    k + 1 ≤ (gen_short_uuid_digits n).length := by
  induction k with
  | zero =>
    intro n hn
    have h1 : 1 ≤ n := by simpa using hn
    have hne : n ≠ 0 := by omega
    rw [gen_short_uuid_digits_ne_zero n hne]
    simp
  | succ k ih =>
    intro n hn
    have hpos : 0 < 57 ^ (k + 1) := pow_pos (by norm_num) _
    have hne : n ≠ 0 := by omega
    rw [gen_short_uuid_digits_ne_zero n hne]
    simp only [List.length_cons]
    have h2 : 57 ^ k ≤ n / 57 := by
      rw [Nat.le_div_iff_mul_le (by norm_num : 0 < 57)]
      calc 57 ^ k * 57 = 57 ^ (k + 1) := by ring
        _ ≤ n := hn
    have h3 := ih (n / 57) h2
    omega

/-- Every character the encoder emits comes from the alphabet. -/
theorem gen_short_uuid_digits_mem (n : Nat) :
    ∀ c ∈ gen_short_uuid_digits n, c ∈ alphabet.data := by
  induction n using Nat.strong_induction_on with
  | _ n ih =>
    by_cases hn : n = 0
    · subst hn
      simp [gen_short_uuid_digits]
    · rw [gen_short_uuid_digits_ne_zero n hn]
      intro c hc
      rcases List.mem_cons.mp hc with rfl | hc2
      · apply getD_mem_of_lt
        have h57 : alphabet.data.length = 57 := by decide
        rw [h57]
        exact Nat.mod_lt _ (by norm_num)
      · exact ih (n / 57) (Nat.div_lt_self (Nat.pos_of_ne_zero hn) (by norm_num)) c hc2

/-- A session scope whose result is an error rolled its changes back. -/
theorem session_scope_rollback {α : Type} (db : DB) (body : DB → Except DBError (DB × α))
    (e : DBError) (h : (ExpDB.session_scope db body).2 = Except.error e) :
    (ExpDB.session_scope db body).1 = db := by
  unfold ExpDB.session_scope at h ⊢
  cases hb : body db with
  | ok pa =>
    obtain ⟨db2, a⟩ := pa
    rw [hb] at h
    exact Except.noConfusion h
  | error e2 => rfl

/-- The default-visibility experiment query at a unique visible identifier
returns exactly that row. -/
theorem get_experiments_visible_single (db : DB) (u : String) (e : Experiment)
    (he : e ∈ db.experiments) (hnd : (db.experiments.map Experiment.uuid).Nodup)
    (hu : e.uuid = u) (hh : e.hidden = false) :
    ExpDB.get_experiments db (some [u]) false = [e] := by
  unfold ExpDB.get_experiments ExpDB.run_query_with_optional_session
  apply filter_eq_single_of_key Experiment.uuid _ _ e he hnd
  · simp [hh, hu]
  · intro x hx hpx
    simp at hpx
    rw [show Experiment.uuid x = x.uuid from rfl, hpx.2, hu]

/-- The default-visibility experiment query returns nothing when every row
carrying the identifier is hidden (in particular when none carries it). -/
theorem get_experiments_visible_empty (db : DB) (u : String)
    (h : ∀ x ∈ db.experiments, x.uuid = u → x.hidden = true) :
    ExpDB.get_experiments db (some [u]) false = [] := by
  unfold ExpDB.get_experiments ExpDB.run_query_with_optional_session
  rw [List.filter_eq_nil_iff]
  intro x hx
  by_cases hxu : x.uuid = u
  · simp [h x hx hxu]
  · simp [hxu]

/-- The default-visibility project query at a unique visible name returns
exactly that row. -/
theorem get_projects_visible_single (db : DB) (n : String) (p : Project)
    (hp : p ∈ db.projects) (hnd : (db.projects.map Project.name).Nodup)
    (hn : p.name = n) (hh : p.hidden = false) :
    ExpDB.get_projects db (some [n]) false = [p] := by
  unfold ExpDB.get_projects ExpDB.run_query_with_optional_session
  apply filter_eq_single_of_key Project.name _ _ p hp hnd
  · simp [hh, hn]
  · intro x hx hpx
    simp at hpx
    rw [show Project.name x = x.name from rfl, hpx.2, hn]

/-- The default-visibility project query returns nothing when every row
carrying the name is hidden (in particular when none carries it). -/
theorem get_projects_visible_empty (db : DB) (n : String)
    (h : ∀ x ∈ db.projects, x.name = n → x.hidden = true) :
    ExpDB.get_projects db (some [n]) false = [] := by
  unfold ExpDB.get_projects ExpDB.run_query_with_optional_session
  rw [List.filter_eq_nil_iff]
  intro x hx
  by_cases hxn : x.name = n
  · simp [h x hx hxn]
  · simp [hxn]

/-- The default-visibility experiment-state query at a unique visible
identifier returns exactly that row. -/
theorem get_experiment_states_visible_single (db : DB) (u : String) (s : ExperimentState)
    (hs : s ∈ db.experiment_states)
    (hnd : (db.experiment_states.map ExperimentState.uuid).Nodup)
    (hu : s.uuid = u) (hh : s.hidden = false) :
    ExpDB.get_experiment_states db (some [u]) false = [s] := by
  unfold ExpDB.get_experiment_states ExpDB.run_query_with_optional_session
  apply filter_eq_single_of_key ExperimentState.uuid _ _ s hs hnd
  · simp [hh, hu]
  · intro x hx hpx
    simp at hpx
    rw [show ExperimentState.uuid x = x.uuid from rfl, hpx.2, hu]

/-- The default-visibility experiment-state query returns nothing when every
row carrying the identifier is hidden (in particular when none carries
it). -/
theorem get_experiment_states_visible_empty (db : DB) (u : String)
    (h : ∀ x ∈ db.experiment_states, x.uuid = u → x.hidden = true) :
    ExpDB.get_experiment_states db (some [u]) false = [] := by
  unfold ExpDB.get_experiment_states ExpDB.run_query_with_optional_session
  rw [List.filter_eq_nil_iff]
  intro x hx
  by_cases hxu : x.uuid = u
  · simp [h x hx hxu]
  · simp [hxu]

/-! Claim theorems. -/

/-- C1: `create_experiment_state(experiment_uuid, data, ...)` is claimed to
create an `ExperimentState` record and return it via a fresh
read-after-write fetch.  In the code the call instead constructs an
`Experiment` with the keyword argument `experiment_uuid`, which is not a
mapped attribute of `Experiment`, so for every input the declarative
constructor raises `TypeError`, the transaction rolls back (the database is
unchanged) and no record is ever created or returned. -/
theorem create_experiment_state_always_raises (db : DB) (r : Nat)
    (experiment_uuid : String) (data : Dict) (name description tags : Option String) :
    ExpDB.create_experiment_state db r experiment_uuid data name description tags
      = (db, Except.error DBError.typeError) := rfl

/-- C3 counterexample: hiding the already-hidden experiment `E1` of
`dbHiddenExp` is not a succeeding no-op — the operation raises an assertion
error (its result is not `ok`), because the `assert_exists` lookup runs
through the default non-hidden query; the stored state is unchanged. -/
theorem hide_hidden_experiment_concrete :
    (ExpDB.hide_experiment dbHiddenExp "E1").2 ≠ Except.ok () ∧
    (ExpDB.hide_experiment dbHiddenExp "E1").1 = dbHiddenExp :=
  ⟨fun h => Except.noConfusion h, rfl⟩

/-- C3 (amended): hiding a record that is already hidden is not a no-op —
each hide operation fetches the record with `assert_exists=True` through the
default `show_hidden=False` query, so when every row carrying the identifier
is hidden the lookup comes back empty, the operation raises an assertion
error, and the stored state is left unchanged (the record does stay
hidden). -/
theorem hide_already_hidden_raises (db : DB) (u : String) :
    ((∀ p ∈ db.projects, p.name = u → p.hidden = true) →
      ExpDB.hide_project db u = (db, Except.error DBError.assertionError)) ∧
    ((∀ e ∈ db.experiments, e.uuid = u → e.hidden = true) →
      ExpDB.hide_experiment db u = (db, Except.error DBError.assertionError)) ∧
    ((∀ s ∈ db.experiment_states, s.uuid = u → s.hidden = true) →
      ExpDB.hide_experiment_state db u = (db, Except.error DBError.assertionError)) := by
  refine ⟨fun h => ?_, fun h => ?_, fun h => ?_⟩
  · have hget : ExpDB.get_project db u true = Except.error DBError.assertionError :=
      run_get_empty_true db u _ (get_projects_visible_empty db u h)
    simp [ExpDB.hide_project, ExpDB.session_scope, hget]
  · have hget : ExpDB.get_experiment db u true = Except.error DBError.assertionError :=
      run_get_empty_true db u _ (get_experiments_visible_empty db u h)
    simp [ExpDB.hide_experiment, ExpDB.session_scope, hget]
  · have hget : ExpDB.get_experiment_state db u true = Except.error DBError.assertionError :=
      run_get_empty_true db u _ (get_experiment_states_visible_empty db u h)
    simp [ExpDB.hide_experiment_state, ExpDB.session_scope, hget]

/-- C3 witness: the amended statement applied to the concrete database whose
only experiment is hidden. -/
theorem hide_already_hidden_raises_witness :
    ExpDB.hide_experiment dbHiddenExp "E1" = (dbHiddenExp, Except.error DBError.assertionError) :=
  (hide_already_hidden_raises dbHiddenExp "E1").2.1 (by
    intro e he _
    rcases List.mem_singleton.mp he with rfl
    rfl)

/-- C10: for an identifier matching no record, the by-identity fetches with
`assert_exists=False` return `None` without raising. -/
theorem get_missing_none (db : DB) (u : String) :
    ((∀ p ∈ db.projects, p.name ≠ u) → ExpDB.get_project db u false = Except.ok none) ∧
    ((∀ e ∈ db.experiments, e.uuid ≠ u) → ExpDB.get_experiment db u false = Except.ok none) ∧
    ((∀ s ∈ db.experiment_states, s.uuid ≠ u) →
      ExpDB.get_experiment_state db u false = Except.ok none) := by
  refine ⟨fun h => ?_, fun h => ?_, fun h => ?_⟩
  · exact run_get_empty_false db u _
      (get_projects_visible_empty db u (fun x hx hxu => absurd hxu (h x hx)))
  · exact run_get_empty_false db u _
      (get_experiments_visible_empty db u (fun x hx hxu => absurd hxu (h x hx)))
  · exact run_get_empty_false db u _
      (get_experiment_states_visible_empty db u (fun x hx hxu => absurd hxu (h x hx)))

/-- C10 witness: the three fetches on the empty database. -/
theorem get_missing_none_witness :
    ExpDB.get_project dbEmpty "x" false = Except.ok none ∧
    ExpDB.get_experiment dbEmpty "x" false = Except.ok none ∧
    ExpDB.get_experiment_state dbEmpty "x" false = Except.ok none :=
  ⟨(get_missing_none dbEmpty "x").1 (by intro p hp; cases hp),
   (get_missing_none dbEmpty "x").2.1 (by intro e he; cases he),
   (get_missing_none dbEmpty "x").2.2 (by intro s hs; cases hs)⟩

/-- C4 counterexample: the random value 0 is a 128-bit value, yet the
generated identifier for it is the empty string, not 10 characters — the
base-57 encoding of a value below `57 ^ 9` has fewer than 10 digits. -/
theorem gen_short_uuid_small_value :
    ExpDB.gen_short_uuid 0 = "" ∧ (ExpDB.gen_short_uuid 0).length ≠ 10 := by
  constructor
  · simp [ExpDB.gen_short_uuid, gen_short_uuid_module, gen_short_uuid, gen_short_uuid_digits]
  · simp [ExpDB.gen_short_uuid, gen_short_uuid_module, gen_short_uuid, gen_short_uuid_digits]

/-- C4 (amended): for every random value of at least `57 ^ 9` — which covers
every integer an RFC-4122 version-4 UUID can produce, since those always
have bit 78 set and hence are at least `2 ^ 78 > 57 ^ 9` — the generated
short identifier is exactly 10 characters long and every character is drawn
from the fixed 57-character alphabet. -/
theorem gen_short_uuid_ten_chars (r : Nat) (h : 57 ^ 9 ≤ r) :
    (ExpDB.gen_short_uuid r).length = 10 ∧
    ∀ c ∈ (ExpDB.gen_short_uuid r).data, c ∈ alphabet.data := by
  have hlen : 10 ≤ (gen_short_uuid_digits r).length := gen_short_uuid_digits_length 9 r h
  constructor
  · show (String.mk ((gen_short_uuid_digits r).reverse.take 10)).length = 10
    simp [String.length]
    omega
  · intro c hc
    have hc2 : c ∈ (gen_short_uuid_digits r).reverse.take 10 := hc
    have hc3 : c ∈ (gen_short_uuid_digits r).reverse := List.mem_of_mem_take hc2
    exact gen_short_uuid_digits_mem r c (List.mem_reverse.mp hc3)

/-- C4 witness: the amended statement applied at `2 ^ 127`. -/
theorem gen_short_uuid_ten_chars_witness :
    57 ^ 9 ≤ 2 ^ 127 ∧
    ((ExpDB.gen_short_uuid (2 ^ 127)).length = 10 ∧
     ∀ c ∈ (ExpDB.gen_short_uuid (2 ^ 127)).data, c ∈ alphabet.data) :=
  ⟨by norm_num, gen_short_uuid_ten_chars (2 ^ 127) (by norm_num)⟩

/-- A fresh-name insert is the only visible row the by-name project query
finds afterwards. -/
theorem get_projects_append_fresh (db : DB) (name : String) (newp : Project) (t : Nat)
    (hfresh : ∀ p ∈ db.projects, p.name ≠ name)
    (hname : newp.name = name) (hh : newp.hidden = false) :
    ExpDB.get_projects { db with projects := db.projects ++ [newp], now := t }
      (some [name]) false = [newp] := by
  unfold ExpDB.get_projects ExpDB.run_query_with_optional_session
  show List.filter _ (db.projects ++ [newp]) = _
  rw [List.filter_append]
  have h1 : db.projects.filter
      (fun p => (false || !p.hidden) && ([name].contains p.name)) = [] := by
    rw [List.filter_eq_nil_iff]
    intro x hx
    simp [hfresh x hx]
  rw [h1]
  simp [hname, hh]

/-- A fresh-identifier insert is the only visible row the by-identifier
experiment query finds afterwards. -/
theorem get_experiments_append_fresh (db : DB) (u : String) (newe : Experiment) (t : Nat)
    (hfresh : ∀ x ∈ db.experiments, x.uuid ≠ u)
    (huuid : newe.uuid = u) (hh : newe.hidden = false) :
    ExpDB.get_experiments { db with experiments := db.experiments ++ [newe], now := t }
      (some [u]) false = [newe] := by
  unfold ExpDB.get_experiments ExpDB.run_query_with_optional_session
  show List.filter _ (db.experiments ++ [newe]) = _
  rw [List.filter_append]
  have h1 : db.experiments.filter
      (fun x => (false || !x.hidden) && ([u].contains x.uuid)) = [] := by
    rw [List.filter_eq_nil_iff]
    intro x hx
    simp [hfresh x hx]
  rw [h1]
  simp [huuid, hh]

/-- Creating a project under a fresh name succeeds and the read-after-write
fetch returns the inserted row. -/
theorem create_project_fresh_ok (db : DB) (name : String) (data : Dict)
    (description tags : Option String)
    (hfresh : ∀ p ∈ db.projects, p.name ≠ name) :
    ∃ p : Project,
      (ExpDB.create_project db name data description tags).2 = Except.ok (some p) ∧
      p.name = name ∧ p.data = data ∧ p.hidden = false ∧ p.creation_time.isSome = true ∧
      ExpDB.get_project (ExpDB.create_project db name data description tags).1 name true
        = Except.ok (some p) := by
  have hany : (db.projects.any fun p => p.name == name) = false := by
    rw [List.any_eq_false]
    intro x hx
    simp [hfresh x hx]
  have hget : ExpDB.get_project
      { db with projects := db.projects ++ [⟨name, tags, description, data, some db.now, false⟩], now := db.now + 1 } name true
      = Except.ok (some ⟨name, tags, description, data, some db.now, false⟩) :=
    run_get_singleton _ name _ _
      (get_projects_append_fresh db name ⟨name, tags, description, data, some db.now, false⟩ (db.now + 1) hfresh rfl rfl)
  refine ⟨⟨name, tags, description, data, some db.now, false⟩, ?_, rfl, rfl, rfl, rfl, ?_⟩
  · unfold ExpDB.create_project ExpDB.session_scope declarativeNew
    simp +decide [hany, hget]
  · unfold ExpDB.create_project ExpDB.session_scope declarativeNew
    simp +decide [hany, hget]

/-- Creating an experiment whose generated identifier is fresh succeeds. -/
theorem create_experiment_fresh_ok (db : DB) (r : Nat) (pn : String) (data : Dict)
    (nm dsc tags : Option String)
    (hfresh : ∀ x ∈ db.experiments, x.uuid ≠ ExpDB.gen_short_uuid r) :
    (ExpDB.create_experiment db r pn data nm dsc tags).2
      = Except.ok (some ⟨ExpDB.gen_short_uuid r, nm, tags, data, some pn, dsc, some db.now, false⟩) := by
  have hany : (db.experiments.any fun x => x.uuid == ExpDB.gen_short_uuid r) = false := by
    rw [List.any_eq_false]
    intro x hx
    simp [hfresh x hx]
  have hget : ExpDB.get_experiment
      { db with experiments := db.experiments ++ [⟨ExpDB.gen_short_uuid r, nm, tags, data, some pn, dsc, some db.now, false⟩], now := db.now + 1 }
      (ExpDB.gen_short_uuid r) true
      = Except.ok (some ⟨ExpDB.gen_short_uuid r, nm, tags, data, some pn, dsc, some db.now, false⟩) :=
    run_get_singleton _ _ _ _
      (get_experiments_append_fresh db (ExpDB.gen_short_uuid r)
        ⟨ExpDB.gen_short_uuid r, nm, tags, data, some pn, dsc, some db.now, false⟩
        (db.now + 1) hfresh rfl rfl)
  unfold ExpDB.create_experiment ExpDB.session_scope declarativeNew
  simp +decide [hany, hget]

/-- Hiding an evaluation does not change which identifiers exist. -/
theorem evaluation_uuid_exists_hide (evals : List EvalRecord) (x y : String) :
    evaluation_uuid_exists (hide_evaluation evals x) y = evaluation_uuid_exists evals y := by
  unfold evaluation_uuid_exists hide_evaluation
  induction evals with
  | nil => rfl
  | cons a t ih =>
    rw [List.map_cons, List.any_cons, List.any_cons, ih]
    congr 1
    by_cases hax : a.uuid = x
    · simp [hax]
    · simp [hax]

/-- After `hide_evaluation`, the records carrying the identifier are hidden. -/
theorem hide_evaluation_hides (evals : List EvalRecord) (x : String) :
    ∀ e ∈ hide_evaluation evals x, e.uuid = x → e.hidden = true := by
  intro e he heu
  unfold hide_evaluation at he
  obtain ⟨e0, he0, rfl⟩ := List.mem_map.mp he
  by_cases hax : e0.uuid = x
  · simp [hax]
  · rw [if_neg hax] at heu ⊢
    exact absurd heu hax

/-- Hiding a model does not change which identifiers exist. -/
theorem model_uuid_exists_hide (models : List ModelRecord) (x y : String) :
    model_uuid_exists (hide_model models x) y = model_uuid_exists models y := by
  unfold model_uuid_exists hide_model
  induction models with
  | nil => rfl
  | cons a t ih =>
    rw [List.map_cons, List.any_cons, List.any_cons, ih]
    congr 1
    by_cases hax : a.uuid = x
    · simp [hax]
    · simp [hax]

/-- After `hide_model`, the records carrying the identifier are hidden. -/
theorem hide_model_hides (models : List ModelRecord) (x : String) :
    ∀ m ∈ hide_model models x, m.uuid = x → m.hidden = true := by
  intro m hm hmu
  unfold hide_model at hm
  obtain ⟨m0, hm0, rfl⟩ := List.mem_map.mp hm
  by_cases hax : m0.uuid = x
  · simp [hax]
  · rw [if_neg hax] at hmu ⊢
    exact absurd hmu hax

/-- C2: the CLI `hide evaluations --uuid_list X,Y` and
`hide models --uuid_list X,Y` subcommands, where `X` names an existing
record and `Y` does not: `X` becomes hidden, the diagnostic
"... is not a valid ... id" line is printed for `Y`, and the loop completes
(the missing identifier is only reported, never passed to the hide call).
The storage methods the CLI calls for these kinds are modelled from the
spec (`evaluation_uuid_exists`, `hide_evaluation`, `model_uuid_exists`,
`hide_model`); the loop itself embeds expdb_cli.py:31-38 and 64-72. -/
theorem cli_hide_uuid_list_reports (evals : List EvalRecord) (models : List ModelRecord)
    (lst mlst X Y XM YM : String)
    (hsplit : pySplitComma lst = [X, Y])
    (hX : evaluation_uuid_exists evals X = true)
    (hY : evaluation_uuid_exists evals Y = false)
    (hmsplit : pySplitComma mlst = [XM, YM])
    (hXM : model_uuid_exists models XM = true)
    (hYM : model_uuid_exists models YM = false) :
    ((∀ e ∈ (hide_evaluations_uuid_list evals lst).1, e.uuid = X → e.hidden = true) ∧
     (Y ++ " is not a valid evaluation id") ∈ (hide_evaluations_uuid_list evals lst).2) ∧
    ((∀ m ∈ (hide_models_uuid_list models mlst).1, m.uuid = XM → m.hidden = true) ∧
     (YM ++ " is not a valid model id") ∈ (hide_models_uuid_list models mlst).2) := by
  have h1 : hide_evaluations_uuid_list evals lst
      = (hide_evaluation evals X,
         ["evaluation " ++ X ++ " is now hidden", Y ++ " is not a valid evaluation id"]) := by
    unfold hide_evaluations_uuid_list
    rw [hsplit]
    simp [hX, hY, evaluation_uuid_exists_hide]
  have h2 : hide_models_uuid_list models mlst
      = (hide_model models XM,
         ["Model " ++ XM ++ " is now hidden", YM ++ " is not a valid model id"]) := by
    unfold hide_models_uuid_list
    rw [hmsplit]
    simp [hXM, hYM, model_uuid_exists_hide]
  refine ⟨⟨?_, ?_⟩, ⟨?_, ?_⟩⟩
  · rw [h1]
    exact hide_evaluation_hides evals X
  · rw [h1]
    simp
  · rw [h2]
    exact hide_model_hides models XM
  · rw [h2]
    simp

/-- C2 witness: one existing and one missing identifier for each kind. -/
theorem cli_hide_uuid_list_reports_witness :
    pySplitComma "A,B" = ["A", "B"] ∧
    evaluation_uuid_exists [⟨"A", false⟩] "A" = true ∧
    evaluation_uuid_exists [⟨"A", false⟩] "B" = false ∧
    (((∀ e ∈ (hide_evaluations_uuid_list [⟨"A", false⟩] "A,B").1, e.uuid = "A" → e.hidden = true) ∧
      ("B" ++ " is not a valid evaluation id") ∈ (hide_evaluations_uuid_list [⟨"A", false⟩] "A,B").2) ∧
     ((∀ m ∈ (hide_models_uuid_list [⟨"M", false⟩] "M,N").1, m.uuid = "M" → m.hidden = true) ∧
      ("N" ++ " is not a valid model id") ∈ (hide_models_uuid_list [⟨"M", false⟩] "M,N").2)) :=
  ⟨by decide, by decide, by decide,
   cli_hide_uuid_list_reports [⟨"A", false⟩] [⟨"M", false⟩] "A,B" "M,N" "A" "B" "M" "N"
     (by decide) (by decide) (by decide) (by decide) (by decide) (by decide)⟩

/-- C5: for a JSON-serializable metadata map and a name not yet used,
`create_project(name, data)` followed by `get_project(name)` returns a
record whose `name` and `data` equal the inputs, whose hidden flag is false
and whose creation timestamp is non-null; the create call itself already
returns that record through its read-after-write fetch. -/
theorem create_project_roundtrip (db : DB) (name : String) (data : Dict)
    (description tags : Option String)
    (hfresh : ∀ p ∈ db.projects, p.name ≠ name) :
    ∃ p : Project,
      (ExpDB.create_project db name data description tags).2 = Except.ok (some p) ∧
      p.name = name ∧ p.data = data ∧ p.hidden = false ∧ p.creation_time.isSome = true ∧
      ExpDB.get_project (ExpDB.create_project db name data description tags).1 name true
        = Except.ok (some p) :=
  create_project_fresh_ok db name data description tags hfresh

/-- C5 witness: creating project `P` in the empty database. -/
theorem create_project_roundtrip_witness :
    ∃ p : Project,
      (ExpDB.create_project dbEmpty "P" [("a", JsonVal.num 1)] none none).2
        = Except.ok (some p) ∧
      p.name = "P" ∧ p.data = [("a", JsonVal.num 1)] ∧ p.hidden = false ∧
      p.creation_time.isSome = true ∧
      ExpDB.get_project (ExpDB.create_project dbEmpty "P" [("a", JsonVal.num 1)] none none).1
        "P" true = Except.ok (some p) :=
  create_project_roundtrip dbEmpty "P" [("a", JsonVal.num 1)] none none
    (by intro p hp; cases hp)

/-- C6 counterexample: the hidden experiment `E1` of `dbHiddenExp` is an
existing record with metadata `{a: 1}`, yet `update_experiment_data` with
`{b: 2}` does not merge — the lookup inside the update runs through the
default non-hidden query with `assert_exists=True`, raises, rolls back, and
the record's metadata still has no key `b`. -/
theorem update_hidden_experiment_concrete :
    (ExpDB.update_experiment_data dbHiddenExp "E1" [("b", JsonVal.num 2)]).2
      = Except.error DBError.assertionError ∧
    (ExpDB.update_experiment_data dbHiddenExp "E1" [("b", JsonVal.num 2)]).1 = dbHiddenExp ∧
    dictGet hiddenExp.data "b" = none :=
  ⟨rfl, rfl, rfl⟩

/-- C6 (amended): for every existing non-hidden record with metadata map `D`
and every update map `U` (with distinct keys, as any Python dict), the
update-data operations succeed and leave the record's metadata equal to the
merge of `D` and `U`: every key of `U` maps to `U`'s value and every other
key keeps its `D`-value.  On a hidden record the operation instead fails
with an assertion error, because its existence lookup excludes hidden
rows. -/
theorem update_data_merges (db : DB) (u : String) (U : Dict)
    (hndU : (U.map Prod.fst).Nodup) :
    (∀ p ∈ db.projects, (db.projects.map Project.name).Nodup → p.name = u → p.hidden = false →
      (ExpDB.update_project_data db u U).2 = Except.ok () ∧
      ∃ p2 ∈ (ExpDB.update_project_data db u U).1.projects, p2.name = u ∧
        (∀ k v, dictGet U k = some v → dictGet p2.data k = some v) ∧
        (∀ k, dictGet U k = none → dictGet p2.data k = dictGet p.data k)) ∧
    (∀ x ∈ db.experiments, (db.experiments.map Experiment.uuid).Nodup → x.uuid = u → x.hidden = false →
      (ExpDB.update_experiment_data db u U).2 = Except.ok () ∧
      ∃ x2 ∈ (ExpDB.update_experiment_data db u U).1.experiments, x2.uuid = u ∧
        (∀ k v, dictGet U k = some v → dictGet x2.data k = some v) ∧
        (∀ k, dictGet U k = none → dictGet x2.data k = dictGet x.data k)) ∧
    (∀ s ∈ db.experiment_states, (db.experiment_states.map ExperimentState.uuid).Nodup → s.uuid = u → s.hidden = false →
      (ExpDB.update_experiment_state_data db u U).2 = Except.ok () ∧
      ∃ s2 ∈ (ExpDB.update_experiment_state_data db u U).1.experiment_states, s2.uuid = u ∧
        (∀ k v, dictGet U k = some v → dictGet s2.data k = some v) ∧
        (∀ k, dictGet U k = none → dictGet s2.data k = dictGet s.data k)) := by
  refine ⟨fun p hp hnd hn hh => ?_, fun x hx hnd hn hh => ?_, fun s hs hnd hn hh => ?_⟩
  · have hget : ExpDB.get_project db u true = Except.ok (some p) :=
      run_get_singleton _ u _ p (get_projects_visible_single db u p hp hnd hn hh)
    have hres : ExpDB.update_project_data db u U
        = ({ db with projects := db.projects.map (fun q => if q.name = u then { q with data := dictUpdate q.data U } else q) }, Except.ok ()) := by
      unfold ExpDB.update_project_data ExpDB.session_scope
      simp [hget]
    refine ⟨by rw [hres], { p with data := dictUpdate p.data U }, ?_, hn, ?_, ?_⟩
    · rw [hres]
      have heq : (fun q => if q.name = u then { q with data := dictUpdate q.data U } else q) p
          = { p with data := dictUpdate p.data U } := by simp [hn]
      exact heq ▸ List.mem_map_of_mem _ hp
    · exact fun k v hk => dictGet_dictUpdate_of_mem p.data U hndU k v hk
    · exact fun k hk => dictGet_dictUpdate_of_not_mem p.data U k hk
  · have hget : ExpDB.get_experiment db u true = Except.ok (some x) :=
      run_get_singleton _ u _ x (get_experiments_visible_single db u x hx hnd hn hh)
    have hres : ExpDB.update_experiment_data db u U
        = ({ db with experiments := db.experiments.map (fun q => if q.uuid = u then { q with data := dictUpdate q.data U } else q) }, Except.ok ()) := by
      unfold ExpDB.update_experiment_data ExpDB.session_scope
      simp [hget]
    refine ⟨by rw [hres], { x with data := dictUpdate x.data U }, ?_, hn, ?_, ?_⟩
    · rw [hres]
      have heq : (fun q => if q.uuid = u then { q with data := dictUpdate q.data U } else q) x
          = { x with data := dictUpdate x.data U } := by simp [hn]
      exact heq ▸ List.mem_map_of_mem _ hx
    · exact fun k v hk => dictGet_dictUpdate_of_mem x.data U hndU k v hk
    · exact fun k hk => dictGet_dictUpdate_of_not_mem x.data U k hk
  · have hget : ExpDB.get_experiment_state db u true = Except.ok (some s) :=
      run_get_singleton _ u _ s (get_experiment_states_visible_single db u s hs hnd hn hh)
    have hres : ExpDB.update_experiment_state_data db u U
        = ({ db with experiment_states := db.experiment_states.map (fun q => if q.uuid = u then { q with data := dictUpdate q.data U } else q) }, Except.ok ()) := by
      unfold ExpDB.update_experiment_state_data ExpDB.session_scope
      simp [hget]
    refine ⟨by rw [hres], { s with data := dictUpdate s.data U }, ?_, hn, ?_, ?_⟩
    · rw [hres]
      have heq : (fun q => if q.uuid = u then { q with data := dictUpdate q.data U } else q) s
          = { s with data := dictUpdate s.data U } := by simp [hn]
      exact heq ▸ List.mem_map_of_mem _ hs
    · exact fun k v hk => dictGet_dictUpdate_of_mem s.data U hndU k v hk
    · exact fun k hk => dictGet_dictUpdate_of_not_mem s.data U k hk

/-- C6 witness: merging `{b: 2}` into the visible experiment `E` of `dbVis`,
whose metadata is `{a: 1}`. -/
theorem update_data_merges_witness :
    (ExpDB.update_experiment_data dbVis "E" [("b", JsonVal.num 2)]).2 = Except.ok () ∧
    ∃ x2 ∈ (ExpDB.update_experiment_data dbVis "E" [("b", JsonVal.num 2)]).1.experiments,
      x2.uuid = "E" ∧
      (∀ k v, dictGet [("b", JsonVal.num 2)] k = some v → dictGet x2.data k = some v) ∧
      (∀ k, dictGet [("b", JsonVal.num 2)] k = none →
        dictGet x2.data k = dictGet visExp.data k) :=
  (update_data_merges dbVis "E" [("b", JsonVal.num 2)] (by simp)).2.1 visExp
    (List.mem_singleton.mpr rfl) (by simp [dbVis, visExp]) rfl rfl

/-- C7: hiding is non-cascading — for every database and project name,
`hide_project` leaves the experiment table and the experiment-state table
(and hence every child experiment and, transitively, every experiment
state) exactly as they were, and the project table is either unchanged (the
lookup failed) or changed only by setting the hidden flag of the rows
carrying the given name, every other field and row untouched. -/
theorem hide_project_frame (db : DB) (n : String) :
    (ExpDB.hide_project db n).1.experiments = db.experiments ∧
    (ExpDB.hide_project db n).1.experiment_states = db.experiment_states ∧
    ((ExpDB.hide_project db n).1.projects = db.projects ∨
     (ExpDB.hide_project db n).1.projects
       = db.projects.map (fun p => if p.name = n then { p with hidden := true } else p)) := by
  unfold ExpDB.hide_project ExpDB.session_scope
  cases hg : ExpDB.get_project db n true with
  | error e => refine ⟨?_, ?_, Or.inl ?_⟩ <;> simp [hg]
  | ok op =>
    cases op with
    | none => refine ⟨?_, ?_, Or.inl ?_⟩ <;> simp [hg]
    | some p => refine ⟨?_, ?_, Or.inr ?_⟩ <;> simp [hg]

/-- C8: after hiding an existing visible project, the default
`get_projects` excludes it while `get_projects(show_hidden=True)` includes
it with `hidden=true`; and in general each of the three bulk reads only
ever returns non-hidden rows unless `show_hidden` is requested. -/
theorem hide_project_visibility (db : DB) (n : String) (p : Project)
    (hnd : (db.projects.map Project.name).Nodup)
    (hp : p ∈ db.projects) (hn : p.name = n) (hh : p.hidden = false) :
    (ExpDB.hide_project db n).2 = Except.ok () ∧
    (∀ q ∈ ExpDB.get_projects (ExpDB.hide_project db n).1 none false, q.name ≠ n) ∧
    (∃ q ∈ ExpDB.get_projects (ExpDB.hide_project db n).1 none true,
      q.name = n ∧ q.hidden = true) ∧
    (∀ (db2 : DB) (ns : Option (List String)),
      ∀ q ∈ ExpDB.get_projects db2 ns false, q.hidden = false) ∧
    (∀ (db2 : DB) (us : Option (List String)),
      ∀ q ∈ ExpDB.get_experiments db2 us false, q.hidden = false) ∧
    (∀ (db2 : DB) (us : Option (List String)),
      ∀ q ∈ ExpDB.get_experiment_states db2 us false, q.hidden = false) := by
  have hget : ExpDB.get_project db n true = Except.ok (some p) :=
    run_get_singleton _ n _ p (get_projects_visible_single db n p hp hnd hn hh)
  have hres : ExpDB.hide_project db n
      = ({ db with projects := db.projects.map (fun q => if q.name = n then { q with hidden := true } else q) }, Except.ok ()) := by
    unfold ExpDB.hide_project ExpDB.session_scope
    simp [hget]
  refine ⟨by rw [hres], ?_, ?_, ?_, ?_, ?_⟩
  · intro q hq
    rw [hres] at hq
    unfold ExpDB.get_projects ExpDB.run_query_with_optional_session at hq
    obtain ⟨hmem, hpred⟩ := List.mem_filter.mp hq
    obtain ⟨q0, hq0, rfl⟩ := List.mem_map.mp hmem
    by_cases hq0n : q0.name = n
    · simp [hq0n] at hpred
    · simp [hq0n]
  · refine ⟨{ p with hidden := true }, ?_, ?_, rfl⟩
    · rw [hres]
      unfold ExpDB.get_projects ExpDB.run_query_with_optional_session
      refine List.mem_filter.mpr ⟨?_, by simp⟩
      have heq : (fun q => if q.name = n then { q with hidden := true } else q) p
          = { p with hidden := true } := by simp [hn]
      exact heq ▸ List.mem_map_of_mem _ hp
    · exact hn
  · intro db2 ns q hq
    obtain ⟨-, hpred⟩ := List.mem_filter.mp hq
    have h1 := (Bool.and_eq_true _ _).mp hpred |>.1
    simpa using h1
  · intro db2 us q hq
    obtain ⟨-, hpred⟩ := List.mem_filter.mp hq
    have h1 := (Bool.and_eq_true _ _).mp hpred |>.1
    simpa using h1
  · intro db2 us q hq
    obtain ⟨-, hpred⟩ := List.mem_filter.mp hq
    have h1 := (Bool.and_eq_true _ _).mp hpred |>.1
    simpa using h1

/-- C8 witness: hiding the single visible project of `dbVis`. -/
theorem hide_project_visibility_witness :
    (ExpDB.hide_project dbVis "P").2 = Except.ok () ∧
    (∀ q ∈ ExpDB.get_projects (ExpDB.hide_project dbVis "P").1 none false, q.name ≠ "P") ∧
    (∃ q ∈ ExpDB.get_projects (ExpDB.hide_project dbVis "P").1 none true,
      q.name = "P" ∧ q.hidden = true) ∧
    (∀ (db2 : DB) (ns : Option (List String)),
      ∀ q ∈ ExpDB.get_projects db2 ns false, q.hidden = false) ∧
    (∀ (db2 : DB) (us : Option (List String)),
      ∀ q ∈ ExpDB.get_experiments db2 us false, q.hidden = false) ∧
    (∀ (db2 : DB) (us : Option (List String)),
      ∀ q ∈ ExpDB.get_experiment_states db2 us false, q.hidden = false) :=
  hide_project_visibility dbVis "P" visProj (by simp [dbVis, visProj])
    (List.mem_singleton.mpr rfl) rfl rfl

/-- C9: every storage-layer write operation is all-or-nothing — whenever it
reports an error, the persistent state equals the state before the call
(the transaction rolled back and the error propagated); commits happen only
on normal exit.  The session itself is closed by the `finally` clause in
all cases, which has no further effect on the persistent state. -/
theorem storage_ops_atomic (db : DB) (e : DBError) :
    (∀ n data dsc tags, (ExpDB.create_project db n data dsc tags).2 = Except.error e →
      (ExpDB.create_project db n data dsc tags).1 = db) ∧
    (∀ r pn data nm dsc tags,
      (ExpDB.create_experiment db r pn data nm dsc tags).2 = Except.error e →
      (ExpDB.create_experiment db r pn data nm dsc tags).1 = db) ∧
    (∀ r eu data nm dsc tags,
      (ExpDB.create_experiment_state db r eu data nm dsc tags).2 = Except.error e →
      (ExpDB.create_experiment_state db r eu data nm dsc tags).1 = db) ∧
    (∀ n data, (ExpDB.update_project_data db n data).2 = Except.error e →
      (ExpDB.update_project_data db n data).1 = db) ∧
    (∀ u data, (ExpDB.update_experiment_data db u data).2 = Except.error e →
      (ExpDB.update_experiment_data db u data).1 = db) ∧
    (∀ u data, (ExpDB.update_experiment_state_data db u data).2 = Except.error e →
      (ExpDB.update_experiment_state_data db u data).1 = db) ∧
    (∀ n, (ExpDB.hide_project db n).2 = Except.error e → (ExpDB.hide_project db n).1 = db) ∧
    (∀ u, (ExpDB.hide_experiment db u).2 = Except.error e →
      (ExpDB.hide_experiment db u).1 = db) ∧
    (∀ u, (ExpDB.hide_experiment_state db u).2 = Except.error e →
      (ExpDB.hide_experiment_state db u).1 = db) := by
  refine ⟨?_, ?_, ?_, ?_, ?_, ?_, ?_, ?_, ?_⟩
  · intro n data dsc tags h
    by_cases hany : (db.projects.any fun p => p.name == n) = true
    · have heq : ExpDB.create_project db n data dsc tags
          = (db, Except.error DBError.integrityError) := by
        unfold ExpDB.create_project ExpDB.session_scope declarativeNew
        simp +decide [hany]
      rw [heq]
    · have hfresh : ∀ p ∈ db.projects, p.name ≠ n := by
        intro p hp hpn
        exact hany (List.any_eq_true.mpr ⟨p, hp, by simp [hpn]⟩)
      obtain ⟨p, hok, -, -, -, -, -⟩ := create_project_fresh_ok db n data dsc tags hfresh
      rw [h] at hok
      exact Except.noConfusion hok
  · intro r pn data nm dsc tags h
    by_cases hany : (db.experiments.any fun x => x.uuid == ExpDB.gen_short_uuid r) = true
    · have heq : ExpDB.create_experiment db r pn data nm dsc tags
          = (db, Except.error DBError.integrityError) := by
        unfold ExpDB.create_experiment ExpDB.session_scope declarativeNew
        simp +decide [hany]
      rw [heq]
    · have hfresh : ∀ x ∈ db.experiments, x.uuid ≠ ExpDB.gen_short_uuid r := by
        intro x hx hxu
        exact hany (List.any_eq_true.mpr ⟨x, hx, by simp [hxu]⟩)
      have hok := create_experiment_fresh_ok db r pn data nm dsc tags hfresh
      rw [h] at hok
      exact Except.noConfusion hok
  · intro r eu data nm dsc tags h
    rfl
  · intro n data h
    exact session_scope_rollback db _ e h
  · intro u data h
    exact session_scope_rollback db _ e h
  · intro u data h
    exact session_scope_rollback db _ e h
  · intro n h
    exact session_scope_rollback db _ e h
  · intro u h
    exact session_scope_rollback db _ e h
  · intro u h
    exact session_scope_rollback db _ e h

/-- C9 witness: hiding a missing project on the empty database errors and
leaves the state unchanged. -/
theorem storage_ops_atomic_witness :
    (ExpDB.hide_project dbEmpty "z").2 = Except.error DBError.assertionError ∧
    (ExpDB.hide_project dbEmpty "z").1 = dbEmpty :=
  ⟨rfl, (storage_ops_atomic dbEmpty DBError.assertionError).2.2.2.2.2.2.1 "z" rfl⟩
